import Mathlib

/-!
Verification of the crawl-and-materialize pipeline of the
HTML-to-Markdown converter (TypeScript sources: `src/index.ts`,
`src/config.ts`, `src/htmlProcessor.ts`, `src/sitemapParser.ts`).

The embedding below translates the repository's own functions into Lean.
External collaborators (the WHATWG `new URL` parser, `URLSearchParams.get`,
jsdom's parse/query/serialize, axios, xml2js, turndown) are passed in as
explicit capability parameters, exactly where the source calls out to them;
everything the repository itself computes is modelled concretely.

JavaScript strings are modelled as Lean `String`s; the handful of string
operations the source uses are implemented structurally over `String.data`
so that every definition evaluates by kernel reduction.
-/

/-! ## JavaScript string primitives (structural, kernel-evaluable) -/

/-- `s.startsWith(p)`. -/
def jsStartsWith (s p : String) : Bool := p.data.isPrefixOf s.data

/-- `s.endsWith(p)`. -/
def jsEndsWith (s p : String) : Bool := s.data.reverse.take p.data.length = p.data.reverse

/-- `s.slice(n)` / dropping the first `n` UTF-16 units (chars here). -/
def jsDrop (s : String) (n : Nat) : String := ⟨s.data.drop n⟩

/-- `s.slice(0, -n)` — dropping the last `n` chars. -/
def jsDropRight (s : String) (n : Nat) : String := ⟨s.data.take (s.data.length - n)⟩

/-- `s.substring(0, n)`. -/
def jsTake (s : String) (n : Nat) : String := ⟨s.data.take n⟩

/-- `s.length`. -/
def jsLength (s : String) : Nat := s.data.length

/-- `s.toLowerCase()`. -/
def jsToLower (s : String) : String := ⟨s.data.map Char.toLower⟩

/-- Whitespace as `String.prototype.trim` sees it (ASCII portion). -/
def isJsSpace (c : Char) : Bool := c = ' ' || c = '\t' || c = '\n' || c = '\r'

/-- `s.trim()`. -/
def jsTrim (s : String) : String :=
  ⟨((s.data.dropWhile isJsSpace).reverse.dropWhile isJsSpace).reverse⟩

/-- `s.split(c)` on one separator character: `"a//b".split('/') = ["a","","b"]`,
`"".split('/') = [""]`. -/
def splitOnChar (c : Char) : List Char → List (List Char)
  | [] => [[]]
  | x :: xs =>
    match splitOnChar c xs with
    | [] => [[]]
    | r :: rs => if x = c then [] :: r :: rs else (x :: r) :: rs

/-- `s.split(c)` returning strings. -/
def jsSplit (s : String) (c : Char) : List String :=
  (splitOnChar c s.data).map fun l => ⟨l⟩

/-! ## The `sanitize-filename` dependency

`sanitize(input)` (npm `sanitize-filename`, the converter's sanitizer) replaces,
with the empty replacement, every match of
`[/?<>\\:*|"]`, `[\x00-\x1f\x80-\x9f]`, `^\.+$`, the case-insensitive Windows
device names `^(con|prn|aux|nul|com[0-9]|lpt[0-9])(\..*)?$`, and trailing
`[. ]+$`, then truncates to 255 UTF-8 bytes. -/

def illegalChars : List Char := ['/', '?', '<', '>', '\\', ':', '*', '|', '"']

def isControlChar (c : Char) : Bool :=
  c.toNat ≤ 0x1f || (0x80 ≤ c.toNat && c.toNat ≤ 0x9f)

/-- `^\.+$`: the whole string is one or more dots. -/
def isReservedDots (l : List Char) : Bool := !l.isEmpty && l.all (· = '.')

def winBaseNames : List String :=
  ["con", "prn", "aux", "nul",
   "com0", "com1", "com2", "com3", "com4", "com5", "com6", "com7", "com8", "com9",
   "lpt0", "lpt1", "lpt2", "lpt3", "lpt4", "lpt5", "lpt6", "lpt7", "lpt8", "lpt9"]

/-- `^(con|prn|aux|nul|com[0-9]|lpt[0-9])(\..*)?$` case-insensitively. -/
def isWinReserved (l : List Char) : Bool :=
  let low := l.map Char.toLower
  winBaseNames.any fun b => low = b.data || (b.data ++ ['.']).isPrefixOf low

/-- `[. ]+$` stripped. -/
def dropTrailingDotsSpaces (l : List Char) : List Char :=
  (l.reverse.dropWhile fun c => c = '.' || c = ' ').reverse

/-- UTF-8 size of one scalar value. -/
def utf8CharSize (c : Char) : Nat :=
  if c.toNat < 0x80 then 1 else if c.toNat < 0x800 then 2
  else if c.toNat < 0x10000 then 3 else 4

/-- Truncation to a UTF-8 byte budget at a character boundary
(`truncate-utf8-bytes`). -/
def truncateUtf8 (budget : Nat) : List Char → List Char
  | [] => []
  | c :: cs =>
    if utf8CharSize c ≤ budget then c :: truncateUtf8 (budget - utf8CharSize c) cs
    else []

/-- npm `sanitize-filename` with the default empty replacement. -/
def sanitizeFilename (s : String) : String :=
  let l1 := s.data.filter fun c => !(illegalChars.contains c)
  let l2 := l1.filter fun c => !(isControlChar c)
  let l3 := if isReservedDots l2 then [] else l2
  let l4 := if isWinReserved l3 then [] else l3
  ⟨truncateUtf8 255 (dropTrailingDotsSpaces l4)⟩

/-! ## The query-string hash (`src/index.ts` lines 116–124)

```js
const hashCode = (s) => {
  let hash = 0;
  for (let i = 0; i < s.length; i++) {
    const char = s.charCodeAt(i);
    hash = ((hash << 5) - hash) + char;
    hash = hash & hash; // Convert to 32bit integer
  }
  return Math.abs(hash).toString(16);
};
```
`<<` and `&` work on 32-bit two's-complement integers. -/

/-- JavaScript `ToInt32`. -/
def toInt32 (n : Int) : Int := (n + 2 ^ 31) % 2 ^ 32 - 2 ^ 31

/-- One loop iteration: `hash = ((hash << 5) - hash) + char; hash = hash & hash`. -/
def hashCodeStep (hash : Int) (code : Nat) : Int :=
  toInt32 (toInt32 (hash * 32) - hash + code)

/-- The accumulated 32-bit hash of a string (code points; equal to UTF-16
code units on the BMP, which covers every query string considered here). -/
def hashCode (s : String) : Int :=
  s.data.foldl (fun h c => hashCodeStep h c.toNat) 0

def hexDigitChar (n : Nat) : Char :=
  if n < 10 then Char.ofNat (48 + n) else Char.ofNat (87 + n)

def natToHexCore : Nat → Nat → List Char
  | 0, _ => []
  | fuel + 1, n => if n = 0 then [] else natToHexCore fuel (n / 16) ++ [hexDigitChar (n % 16)]

/-- `n.toString(16)` for a non-negative integer: lowercase hexadecimal. -/
def natToHex (n : Nat) : String := if n = 0 then "0" else ⟨natToHexCore 16 n⟩

/-- `Math.abs(hashCode(q)).toString(16)`: the hash suffix the converter
appends for a query string `q`. -/
def queryHashHex (q : String) : String := natToHex (hashCode q).natAbs

/-! ## The URL→path mapper (`src/index.ts` `parseUrl` / `getOutputPaths`)

`new URL(url)` is the platform's WHATWG parser: it is passed in as a
capability `urlParse : String → Option UrlObj` (returning `none` when the
constructor throws), and `new URLSearchParams(search).get(key)` as
`getParam : String → String → Option String`. Everything else is the
repository's own code. -/

/-- The fields of a WHATWG `URL` object that `parseUrl` reads. -/
structure UrlObj where
  hostname : String
  pathname : String
  search : String
deriving DecidableEq

/-- The configuration fields the path mapper reads (`config.outputDir`,
`config.fileOptions.*`). -/
structure PathConfig where
  outputDir : String
  useDomainSubfolders : Bool
  usePageTitlesForFilenames : Bool
  preserveUrlFilenames : Bool
deriving DecidableEq

/-- The record `parseUrl` returns. -/
structure ParsedUrl where
  domain : String
  pathParts : List String
  filename : String
  originalUrl : String
deriving DecidableEq

/-- `urlObj.hostname.replace(/^www\./, '')`. -/
def stripWww (host : String) : String :=
  if jsStartsWith host "www." then jsDrop host 4 else host

/-- `pathname.replace(/^\/|\/$/g, '')`: one leading and one trailing slash. -/
def trimSlashes (p : String) : String :=
  let p1 := if jsStartsWith p "/" then jsDrop p 1 else p
  if jsEndsWith p1 "/" then jsDropRight p1 1 else p1

def fileExtensions : List String := [".html", ".htm", ".php", ".asp", ".aspx", ".jsp"]

/-- The extension-strip loop: the first listed extension the lowercased
pathname ends with is sliced off. -/
def stripKnownExtension (p : String) : String :=
  match fileExtensions.find? (fun ext => jsEndsWith (jsToLower p) ext) with
  | some ext => jsDropRight p (jsLength ext)
  | none => p

/-- `pathname ? pathname.split('/').filter(Boolean) : []` after trimming and
extension stripping. -/
def urlPathParts (u : UrlObj) : List String :=
  let p := stripKnownExtension (trimSlashes u.pathname)
  if p = "" then [] else (jsSplit p '/').filter (· ≠ "")

/-- `pathParts.length > 0 ? pathParts[pathParts.length - 1] : 'index'`. -/
def urlFilenameStem (u : UrlObj) : String := (urlPathParts u).getLastD "index"

/-- `urlObj.search.replace(/^\?/, '')`. -/
def queryStrOf (u : UrlObj) : String :=
  if jsStartsWith u.search "?" then jsDrop u.search 1 else u.search

/-- `url.replace(/^https?:\/\/(www\.)?/, '')` (fallback branch). -/
def stripSchemeWww (url : String) : String :=
  let afterScheme :=
    if jsStartsWith url "https://" then some (jsDrop url 8)
    else if jsStartsWith url "http://" then some (jsDrop url 7)
    else none
  match afterScheme with
  | some r => if jsStartsWith r "www." then jsDrop r 4 else r
  | none => url

/-- `src/index.ts` lines 79–173. `urlParse` is `new URL` (`none` = throws),
`getParam key` is `new URLSearchParams(search).get(key)`. -/
def parseUrl (urlParse : String → Option UrlObj)
    (getParam : String → String → Option String)
    (cfg : PathConfig) (url : String) : ParsedUrl :=
  match urlParse url with
  | some u =>
    let domain := stripWww u.hostname
    let pathParts := urlPathParts u
    let stem := urlFilenameStem u
    let stem1 :=
      if u.search ≠ "" then
        if cfg.preserveUrlFilenames then
          let q := queryStrOf u
          if 0 < jsLength q then stem ++ "-" ++ queryHashHex q else stem
        else
          match getParam u.search "id" <|> getParam u.search "page" <|>
                getParam u.search "slug" with
          | some k => stem ++ "-" ++ sanitizeFilename k
          | none => stem
      else stem
    let stem2 := sanitizeFilename stem1
    let stem3 := if stem2 = "" then "index" else stem2
    { domain := domain, pathParts := pathParts.dropLast,
      filename := stem3 ++ ".md", originalUrl := url }
  | none =>
    let s1 := stripSchemeWww url
    let s2 := ⟨s1.data.takeWhile fun c => c ≠ '?' && c ≠ '#'⟩
    let s3 := if jsEndsWith s2 "/" then jsDropRight s2 1 else s2
    let parts := jsSplit s3 '/'
    let domain := parts.headD ""
    let pathParts := (parts.drop 1).dropLast
    let fname := if 1 < parts.length then parts.getLastD "" else "index"
    let fname1 := if fname = "" then "index" else fname
    { domain := domain, pathParts := pathParts,
      filename := sanitizeFilename fname1 ++ ".md", originalUrl := url }

/-- The output location `getOutputPaths` computes: the source joins
`dirParts = [outputDir, domainDir?, ...pathDirs]` into `dirPath` and appends
`filename`; `outputDir` and the sanitized segments are kept apart here so the
segments can be inspected. -/
structure OutputPaths where
  outputDir : String
  dirSegments : List String
  filename : String
deriving DecidableEq

/-- Truthiness of the optional `pageTitle : string | null`. -/
def titleTruthy : Option String → Bool
  | some s => s ≠ ""
  | none => false

/-- `src/index.ts` lines 181–219. -/
def getOutputPaths (urlParse : String → Option UrlObj)
    (getParam : String → String → Option String)
    (cfg : PathConfig) (url : String) (pageTitle : Option String) : OutputPaths :=
  let p := parseUrl urlParse getParam cfg url
  let domainDir := sanitizeFilename p.domain
  let pathDirs := p.pathParts.map sanitizeFilename
  let dirSegments := if cfg.useDomainSubfolders then domainDir :: pathDirs else pathDirs
  let filename :=
    if cfg.usePageTitlesForFilenames && titleTruthy pageTitle &&
        !cfg.preserveUrlFilenames then
      let t := sanitizeFilename (pageTitle.getD "")
      let t := if 100 < jsLength t then jsTake t 100 else t
      if t = "" then p.filename else t ++ ".md"
    else p.filename
  { outputDir := cfg.outputDir, dirSegments := dirSegments, filename := filename }

/-! ## The HTML processor (`src/htmlProcessor.ts`)

jsdom supplies parsing, CSS-selector queries and serialization; those are
capabilities. The document is modelled as a flat list of elements with
attribute lists — enough structure for the attribute-stripping and
media-URL-absolutization stages, which the repository implements itself,
while the two selector-driven mutation stages (exclude, unwrap) are
`Dom → Option Dom` capabilities whose `none` result models a
`querySelectorAll` throw that the stage's own `catch` swallows. -/

structure Element where
  tag : String
  attrs : List (String × String)
deriving DecidableEq

abbrev Dom := List Element

namespace HtmlProcessor

/-- `keepAttributes = ['href', 'src', 'alt', 'title']`. -/
def keepAttributes : List String := ["href", "src", "alt", "title"]

/-- `removeAttributes(document)`: every attribute whose name is not in the
allow-list is removed from every element. -/
def removeAttributes (d : Dom) : Dom :=
  d.map fun e => { e with attrs := e.attrs.filter fun a => keepAttributes.contains a.1 }

/-- A selector-driven stage (`processExcludeSelectors` /
`processUnwrapSelectors`): the body is one `try { querySelectorAll … mutate }
catch { log }`, so a throwing query (`none`) leaves the document unchanged
and control continues with the next stage. -/
def runQueryStage (q : Dom → Option Dom) (d : Dom) : Dom := (q d).getD d

/-- `applySelectors(document)`: exclusion, then unwrapping, then (when
configured) attribute stripping. -/
def applySelectors (excludeQuery unwrapQuery : Dom → Option Dom)
    (removeAttrsFlag : Bool) (d : Dom) : Dom :=
  let d1 := runQueryStage excludeQuery d
  let d2 := runQueryStage unwrapQuery d1
  if removeAttrsFlag then removeAttributes d2 else d2

def mediaTags : List String := ["img", "audio", "video", "source", "picture"]

/-- A root-relative value (`/…` but not `//…`) gets the page origin
prefixed; anything else is left alone. -/
def absolutizeVal (origin v : String) : String :=
  if jsStartsWith v "/" && !(jsStartsWith v "//") then origin ++ v else v

/-- `el.setAttribute(name, f(el.getAttribute(name)))` for a present
attribute; an absent attribute stays absent. -/
def mapAttr (attrs : List (String × String)) (name : String) (f : String → String) :
    List (String × String) :=
  attrs.map fun a => if a.1 = name then (a.1, f a.2) else a

/-- The per-element effect of `absolutizeMediaUrls`: `src` on media tags,
`href` and `alt` on anchors, `alt` on images. `altFix origin` is the
markdown-image regex replacement applied to `alt` text. -/
def absolutizeElement (altFix : String → String → String) (origin : String)
    (e : Element) : Element :=
  let e1 := if mediaTags.contains e.tag then
      { e with attrs := mapAttr e.attrs "src" (absolutizeVal origin) } else e
  let anchorAttrs :=
    mapAttr (mapAttr e1.attrs "href" (absolutizeVal origin)) "alt" (altFix origin)
  let e2 := if e1.tag = "a" then { e1 with attrs := anchorAttrs } else e1
  if e2.tag = "img" then { e2 with attrs := mapAttr e2.attrs "alt" (altFix origin) }
  else e2

/-- `absolutizeMediaUrls(document, pageUrl)`: `urlOrigin` is
`new URL(pageUrl).origin` (`none` = throws, and the function returns with the
document untouched). -/
def absolutizeMediaUrls (urlOrigin : String → Option String)
    (altFix : String → String → String) (pageUrl : String) (d : Dom) : Dom :=
  match urlOrigin pageUrl with
  | none => d
  | some origin => d.map (absolutizeElement altFix origin)

/-- The capabilities `HtmlProcessor.process` borrows from jsdom and the URL
parser. -/
structure DomCaps where
  parse : String → Option Dom
  serialize : Dom → String
  excludeQuery : Dom → Option Dom
  unwrapQuery : Dom → Option Dom
  urlOrigin : String → Option String
  altFix : String → String → String

/-- `HtmlProcessor.process(html, pageUrl?)`: parse (`none` = throw, caught at
the top, returning the original markup), apply the selector stages, then —
only when a page URL was passed — absolutize media URLs, and serialize. -/
def process (caps : DomCaps) (removeAttrsFlag : Bool) (html : String)
    (pageUrl : Option String) : String :=
  match caps.parse html with
  | none => html
  | some d =>
    let d1 := applySelectors caps.excludeQuery caps.unwrapQuery removeAttrsFlag d
    let d2 := match pageUrl with
      | some u => absolutizeMediaUrls caps.urlOrigin caps.altFix u d1
      | none => d1
    caps.serialize d2

/-- What `extractPageTitle` reads from the parsed document: the `textContent`
of the first `<title>`, the `textContent` of the first `<h1>`, and the
`content` attribute of the first `<meta name="title">` (each `none` when the
query finds nothing). -/
structure TitleDoc where
  titleText : Option String
  h1Text : Option String
  metaTitleContent : Option String
deriving DecidableEq

/-- Truthiness of a nullable string. -/
def strTruthy : Option String → Bool
  | some s => s ≠ ""
  | none => false

/-- `HtmlProcessor.extractPageTitle(html)` over the parsed document
(`none` = the `new JSDOM(html)` constructor threw, caught, returning null).
Each candidate is gated on the truthiness of its raw value and only then
trimmed. -/
def extractPageTitle (doc : Option TitleDoc) : Option String :=
  match doc with
  | none => none
  | some d =>
    if strTruthy d.titleText then some (jsTrim (d.titleText.getD ""))
    else if strTruthy d.h1Text then some (jsTrim (d.h1Text.getD ""))
    else if strTruthy d.metaTitleContent then some (jsTrim (d.metaTitleContent.getD ""))
    else none

end HtmlProcessor

/-! ## The sitemap resolver (`src/sitemapParser.ts`)

axios and xml2js are capabilities: `fetchDoc url` is the fetch of `url`
followed by `parser.parseStringPromise`, normalised to the shapes
`parseSitemapContent` distinguishes. `none` stands for any of: fetch
failure, non-200 status, or an XML parse error — each of which the source
catches, logging and returning the empty list. `resolveUrl loc base` is
`new URL(loc, base).toString()`. Recursion carries an explicit fuel (the
source performs no cycle detection and can recurse forever; fuel `0`, never
reached on the finite trees the claims concern, yields the empty list). -/

namespace SitemapParser

/-- The normalised parse result: a sitemap index (children with optional
`<loc>`), a urlset (entries with optional `<loc>`), or any other root shape
(which yields a warning and the empty list). xml2js with
`explicitArray: false` yields a scalar for a single child; the
`Array.isArray ? … : […]` normalisation in the source makes both shapes the
list carried here. -/
inductive SitemapDoc where
  | index (children : List (Option String))
  | urlset (entries : List (Option String))
  | other
deriving DecidableEq

/-- `handleUrlset`: entries with a truthy `loc` contribute `loc.trim()`, in
document order. -/
def handleUrlset (entries : List (Option String)) : List String :=
  ((entries.filter HtmlProcessor.strTruthy).filterMap id).map jsTrim

/-- The batches `for (let i = 0; i < total; i += maxConcurrent)
batch = sitemaps.slice(i, i + maxConcurrent)` walks through. -/
def windows (k : Nat) (l : List (Option String)) : List (List (Option String)) :=
  (List.range ((l.length + k - 1) / k)).map fun i => (l.drop (i * k)).take k

/-- `SitemapParser.parseFromUrl(sitemapUrl)` with `handleSitemapIndex`
inlined: each batch's children are resolved against the current document's
own URL and recursed into (a child without a `loc` contributes `[]`), the
per-batch results are concatenated in batch order (`Promise.all` preserves
the order of its input array). -/
def parseFromUrl (fetchDoc : String → Option SitemapDoc)
    (resolveUrl : String → String → String) (maxConcurrent : Nat) :
    Nat → String → List String
  | 0, _ => []
  | fuel + 1, sitemapUrl =>
    match fetchDoc sitemapUrl with
    | none => []
    | some .other => []
    | some (.urlset entries) => handleUrlset entries
    | some (.index children) =>
      ((windows maxConcurrent children).map fun batch =>
        (batch.map fun child =>
          match child with
          | some loc =>
            parseFromUrl fetchDoc resolveUrl maxConcurrent fuel
              (resolveUrl loc sitemapUrl)
          | none => []).flatten).flatten

end SitemapParser

/-! ## The fetch/convert retry pipeline (`src/index.ts` lines 226–471)

The network is a schedule `env : Nat → Option String`: `env n` is the body
the `n`-th fetch attempt of the run returns (`none` = timeout / error /
non-200, all of which throw inside `fetchHtmlContent`'s `try`). The attempt
counter is threaded through explicitly so nested retries consume successive
attempts. `convert` is the turndown step together with the
`HtmlProcessor.process` preprocessing and the empty-output check (`none` =
`turndownService.turndown` threw or produced an empty string). A `some`
result of `processUrl` is the content of the one file write; `none` means
the error was caught and logged and no file was written. -/

/-- `fetchHtmlContent(url, retryCount)`: on a failed attempt, while
`retryCount < RETRY_ATTEMPTS`, sleep and recurse with `retryCount + 1`;
otherwise rethrow (`none`). Returns the body and the next attempt index. -/
def fetchHtmlContent (env : Nat → Option String) (retryAttempts : Nat)
    (retryCount : Nat) (ctr : Nat) : Option String × Nat :=
  match env ctr with
  | some body => (some body, ctr + 1)
  | none =>
    if retryCount < retryAttempts then
      fetchHtmlContent env retryAttempts (retryCount + 1) (ctr + 1)
    else (none, ctr + 1)
termination_by retryAttempts - retryCount
decreasing_by omega

/-- `convertHtmlToMarkdown(url, retryCount)`: fetch (itself retrying from a
fresh `retryCount = 0`), convert; any caught error — including
`fetchHtmlContent` exhausting its own retries — is retried while
`retryCount < RETRY_ATTEMPTS`, then rethrown. -/
def convertHtmlToMarkdown (env : Nat → Option String)
    (convert : String → Option String) (retryAttempts : Nat)
    (retryCount : Nat) (ctr : Nat) : Option String × Nat :=
  match fetchHtmlContent env retryAttempts 0 ctr with
  | (some html, ctr1) =>
    match convert html with
    | some md => (some md, ctr1)
    | none =>
      if retryCount < retryAttempts then
        convertHtmlToMarkdown env convert retryAttempts (retryCount + 1) ctr1
      else (none, ctr1)
  | (none, ctr1) =>
    if retryCount < retryAttempts then
      convertHtmlToMarkdown env convert retryAttempts (retryCount + 1) ctr1
    else (none, ctr1)
termination_by retryAttempts - retryCount
decreasing_by all_goals omega

/-- `processUrl(url)` on the URL-path pipeline (titles disabled): convert,
then write on success; the outer catch logs a failure and writes nothing.
`some md` = exactly one file written with content `md`; `none` = zero writes
and one logged failure. -/
def processUrl (env : Nat → Option String) (convert : String → Option String)
    (retryAttempts : Nat) : Option String :=
  (convertHtmlToMarkdown env convert retryAttempts 0 0).1

/-! ## Derived definitions and concrete instances used by the theorems -/

/-- A character the sanitizer guarantees never to emit: not in the
filesystem-illegal set (which includes both path separators `/` and `\`)
and not a control character. -/
def safeChar (c : Char) : Bool := !(illegalChars.contains c) && !(isControlChar c)

/-- The batch pipeline's only two invocations of the rewriter —
`HtmlProcessor.process(htmlContent)` in `convertHtmlToMarkdown`
(`src/index.ts` line 269) and in `processUrl` (line 456) — pass a single
argument: `pageUrl` is omitted. -/
def pipelineRewrite (caps : HtmlProcessor.DomCaps) (removeAttrsFlag : Bool)
    (html : String) : String :=
  HtmlProcessor.process caps removeAttrsFlag html none

/-- Modelled from the amended C6 wording (for comparison with
`extractPageTitle`): the trimmed text of the first candidate — title text,
h1 text, meta-title content, in that order — whose raw value is present and
non-empty; otherwise the no-title result. -/
def extractTitleAmendedSpec (doc : Option HtmlProcessor.TitleDoc) : Option String :=
  doc.bind fun d =>
    ([d.titleText, d.h1Text, d.metaTitleContent].find? HtmlProcessor.strTruthy).map
      fun o => jsTrim (o.getD "")

/-- `URLSearchParams.get` capability for URLs whose query is never consulted
by the branch under study. -/
def gpNone : String → String → Option String := fun _ _ => none

/-- A WHATWG parse capability that never parses: every URL takes
`parseUrl`'s fallback branch. -/
def upNoParse : String → Option UrlObj := fun _ => none

/-- What `new URL("https://example.com/about/")` yields on the fields
`parseUrl` reads: hostname `example.com`, pathname `/about/`, empty search. -/
def upAbout : String → Option UrlObj := fun u =>
  if u = "https://example.com/about/" then some ⟨"example.com", "/about/", ""⟩
  else none

/-- Domain subfolders on, plain URL-path filename policy. -/
def cfgUrlPath : PathConfig := ⟨"dist", true, false, false⟩

/-- What `new URL("https://example.com/.../page")` yields: WHATWG path
normalisation removes `.` and `..` segments but keeps `...`. -/
def upDots : String → Option UrlObj := fun u =>
  if u = "https://example.com/.../page" then some ⟨"example.com", "/.../page", ""⟩
  else none

/-- The repository's default file options: domain subfolders on,
`preserveUrlFilenames` on (the query-hash-preserving policy). -/
def cfgPreserve : PathConfig := ⟨"dist", true, false, true⟩

/-- `new URL("https://example.com/products?id=123&category=books")`. -/
def upQ123 : String → Option UrlObj := fun u =>
  if u = "https://example.com/products?id=123&category=books" then
    some ⟨"example.com", "/products", "?id=123&category=books"⟩
  else none

/-- `new URL("https://example.com/products?id=124&category=books")`. -/
def upQ124 : String → Option UrlObj := fun u =>
  if u = "https://example.com/products?id=124&category=books" then
    some ⟨"example.com", "/products", "?id=124&category=books"⟩
  else none

/-- Page-title filename policy: titles on, query-hash preservation off. -/
def cfgTitle : PathConfig := ⟨"dist", true, true, false⟩

/-- The jsdom parse of a small page: html, head, body elements. -/
def domC9 : Dom := [⟨"html", []⟩, ⟨"head", []⟩, ⟨"body", [("class", "page")]⟩]

/-- jsdom capabilities where the combined exclude selector is invalid
(`querySelectorAll` throws, modelled by `none`), the unwrap query succeeds
matching nothing, and serialization re-serializes the parsed tree — which,
as jsdom normalisation does, differs textually from the raw input. -/
def capsC9 : HtmlProcessor.DomCaps where
  parse := fun _ => some domC9
  serialize := fun _ => "<html><head></head><body>x</body></html>"
  excludeQuery := fun _ => none
  unwrapQuery := fun d => some d
  urlOrigin := fun _ => none
  altFix := fun _ alt => alt

/-- A parsed page holding one image with a root-relative `src`. -/
def domC10 : Dom := [⟨"img", [("src", "/pic.png"), ("alt", "logo")]⟩]

/-- jsdom capabilities for the absolutization demonstration: the selector
stages succeed matching nothing, the page origin resolves, and
serialization renders each element's surviving attributes. -/
def capsC10 : HtmlProcessor.DomCaps where
  parse := fun _ => some domC10
  serialize := fun d =>
    String.join (d.map fun e =>
      String.join (e.attrs.map fun a => a.1 ++ "=" ++ a.2 ++ ";"))
  excludeQuery := fun d => some d
  unwrapQuery := fun d => some d
  urlOrigin := fun u => if u = "https://example.com" then some "https://example.com" else none
  altFix := fun _ alt => alt

/-- A fetch/parse capability describing a sitemap index that references two
leaf sitemaps of two page URLs each. -/
def sitemapEnvC7 : String → Option SitemapParser.SitemapDoc := fun u =>
  if u = "https://example.com/sitemap.xml" then
    some (.index [some "https://example.com/s1.xml", some "https://example.com/s2.xml"])
  else if u = "https://example.com/s1.xml" then
    some (.urlset [some "https://example.com/p1", some "https://example.com/p2"])
  else if u = "https://example.com/s2.xml" then
    some (.urlset [some "https://example.com/p3", some "https://example.com/p4"])
  else none

/-- `new URL(loc, base).toString()` when every `loc` is already absolute. -/
def resolveAbs : String → String → String := fun loc _ => loc

/-- A network schedule whose first four fetch attempts fail and whose later
attempts succeed. -/
def envFails4 : Nat → Option String := fun n => if n < 4 then none else some "page-body"

/-- A network schedule whose first two fetch attempts fail and whose later
attempts succeed. -/
def envFails2 : Nat → Option String := fun n => if n < 2 then none else some "page-body"

/-- A network schedule on which every fetch attempt fails. -/
def envAllFail : Nat → Option String := fun _ => none

/-! ## Helper lemmas -/

lemma mem_of_mem_dropWhile {α} {p : α → Bool} {l : List α} {a : α}
    (h : a ∈ l.dropWhile p) : a ∈ l := by
  induction l with
  | nil => simp at h
  | cons x xs ih =>
    rw [List.dropWhile_cons] at h
    by_cases hx : p x = true
    · simp only [hx, if_true] at h
      exact List.mem_cons_of_mem x (ih h)
    · simp only [hx, if_false] at h
      exact h

lemma mem_of_mem_dropTrailing {l : List Char} {c : Char}
    (h : c ∈ dropTrailingDotsSpaces l) : c ∈ l := by
  unfold dropTrailingDotsSpaces at h
  rw [List.mem_reverse] at h
  have := mem_of_mem_dropWhile h
  rwa [List.mem_reverse] at this

lemma mem_of_mem_truncateUtf8 {b : Nat} {l : List Char} {c : Char}
    (h : c ∈ truncateUtf8 b l) : c ∈ l := by
  induction l generalizing b with
  | nil => simp [truncateUtf8] at h
  | cons x xs ih =>
    rw [truncateUtf8] at h
    by_cases hx : utf8CharSize x ≤ b
    · simp only [hx, if_true, List.mem_cons] at h
      rcases h with h | h
      · exact h ▸ List.mem_cons_self x xs
      · exact List.mem_cons_of_mem x (ih h)
    · simp [hx] at h

/-- Every character the sanitizer emits is safe. -/
lemma safeChar_of_mem_sanitize {s : String} {c : Char}
    (h : c ∈ (sanitizeFilename s).data) : safeChar c = true := by
  unfold sanitizeFilename at h
  simp only at h
  have h4 := mem_of_mem_dropTrailing (mem_of_mem_truncateUtf8 h)
  have h3 : c ∈ (if isReservedDots ((s.data.filter fun c => !(illegalChars.contains c)).filter
      fun c => !(isControlChar c)) then []
      else (s.data.filter fun c => !(illegalChars.contains c)).filter
        fun c => !(isControlChar c)) := by
    rcases ite_eq_or_eq (isWinReserved _) ([] : List Char)
      ((if isReservedDots _ then [] else _)) with he | he
    · rw [he] at h4; simp at h4
    · rwa [he] at h4
  have h2 : c ∈ (s.data.filter fun c => !(illegalChars.contains c)).filter
      fun c => !(isControlChar c) := by
    by_cases hr : isReservedDots ((s.data.filter fun c => !(illegalChars.contains c)).filter
        fun c => !(isControlChar c)) = true
    · rw [if_pos hr] at h3; simp at h3
    · rwa [if_neg hr] at h3
  rw [List.mem_filter] at h2
  rcases h2 with ⟨h1, hctrl⟩
  rw [List.mem_filter] at h1
  rcases h1 with ⟨_, hill⟩
  simp only [safeChar, Bool.and_eq_true]
  exact ⟨hill, hctrl⟩

/-- The whole sanitized string is safe. -/
lemma sanitize_all_safe (s : String) : (sanitizeFilename s).data.all safeChar = true := by
  rw [List.all_eq_true]
  intro c hc
  exact safeChar_of_mem_sanitize hc

lemma data_append (s t : String) : (s ++ t).data = s.data ++ t.data := by
  cases s; cases t; rfl

lemma all_safe_append {s t : String} (hs : s.data.all safeChar = true)
    (ht : t.data.all safeChar = true) : (s ++ t).data.all safeChar = true := by
  rw [data_append, List.all_append, hs, ht]; rfl

lemma all_safe_take {s : String} (n : Nat) (hs : s.data.all safeChar = true) :
    (jsTake s n).data.all safeChar = true := by
  rw [List.all_eq_true] at hs ⊢
  intro c hc
  exact hs c (List.mem_of_mem_take hc)

lemma append_md_ne_empty (s : String) : s ++ ".md" ≠ "" := by
  intro h
  have := congrArg (fun x : String => x.data.length) h
  simp [data_append] at this

lemma all_safe_sanitize_fallback (s : String) :
    (if sanitizeFilename s = "" then "index" else sanitizeFilename s).data.all
      safeChar = true := by
  by_cases h : sanitizeFilename s = ""
  · rw [if_pos h]; decide
  · rw [if_neg h]; exact sanitize_all_safe s

/-- The filename `parseUrl` returns is non-empty and made of safe
characters, on every branch. -/
lemma parseUrl_filename_safe (up : String → Option UrlObj)
    (gp : String → String → Option String) (cfg : PathConfig) (url : String) :
    (parseUrl up gp cfg url).filename ≠ "" ∧
      (parseUrl up gp cfg url).filename.data.all safeChar = true := by
  cases hu : up url with
  | none =>
    simp only [parseUrl, hu]
    exact ⟨append_md_ne_empty _, all_safe_append (sanitize_all_safe _) (by decide)⟩
  | some u =>
    simp only [parseUrl, hu]
    exact ⟨append_md_ne_empty _,
      all_safe_append (all_safe_sanitize_fallback _) (by decide)⟩

/-- Every directory segment `getOutputPaths` emits is a sanitizer output,
hence safe. -/
lemma getOutputPaths_dirSegments_safe (up : String → Option UrlObj)
    (gp : String → String → Option String) (cfg : PathConfig) (url : String)
    (t : Option String) :
    (getOutputPaths up gp cfg url t).dirSegments.all
      (fun seg => seg.data.all safeChar) = true := by
  simp only [getOutputPaths]
  rw [List.all_eq_true]
  intro seg hseg
  by_cases hd : cfg.useDomainSubfolders = true
  · rw [if_pos hd, List.mem_cons] at hseg
    rcases hseg with h | h
    · rw [h]; exact sanitize_all_safe _
    · rcases List.mem_map.mp h with ⟨p, _, hp⟩
      rw [← hp]; exact sanitize_all_safe p
  · rw [if_neg hd] at hseg
    rcases List.mem_map.mp hseg with ⟨p, _, hp⟩
    rw [← hp]; exact sanitize_all_safe p

/-- The filename `getOutputPaths` returns is non-empty and safe: it is
either `parseUrl`'s filename or a capped sanitized title plus `.md`. -/
lemma getOutputPaths_filename_safe (up : String → Option UrlObj)
    (gp : String → String → Option String) (cfg : PathConfig) (url : String)
    (t : Option String) :
    (getOutputPaths up gp cfg url t).filename ≠ "" ∧
      (getOutputPaths up gp cfg url t).filename.data.all safeChar = true := by
  have hp := parseUrl_filename_safe up gp cfg url
  simp only [getOutputPaths]
  by_cases hc : (cfg.usePageTitlesForFilenames && titleTruthy t &&
      !cfg.preserveUrlFilenames) = true
  · rw [if_pos hc]
    have key : ∀ tf2 : String, tf2.data.all safeChar = true →
        (if tf2 = "" then (parseUrl up gp cfg url).filename else tf2 ++ ".md") ≠ "" ∧
          (if tf2 = "" then (parseUrl up gp cfg url).filename
            else tf2 ++ ".md").data.all safeChar = true := by
      intro tf2 h2
      by_cases he : tf2 = ""
      · rw [if_pos he]; exact hp
      · rw [if_neg he]
        exact ⟨append_md_ne_empty _, all_safe_append h2 (by decide)⟩
    apply key
    by_cases hl : 100 < jsLength (sanitizeFilename (t.getD ""))
    · rw [if_pos hl]; exact all_safe_take 100 (sanitize_all_safe _)
    · rw [if_neg hl]; exact sanitize_all_safe _
  · rw [if_neg hc]; exact hp

/-! ## The claims -/

/-- C1: path mapping is deterministic. Two invocations of the URL-to-path
mapping (`parseUrl` composed inside `getOutputPaths`) with identical url,
policy configuration and optional title yield identical output directory
segments and filename: the functions read no clock, counter or other
process state, so the result is a function of `(url, policy, title)` (and
of the deterministic platform URL-parsing capabilities) alone. -/
theorem c1_path_mapping_deterministic (up : String → Option UrlObj)
    (gp : String → String → Option String) (cfg : PathConfig) (url : String)
    (t : Option String) (r1 r2 : OutputPaths)
    (h1 : r1 = getOutputPaths up gp cfg url t)
    (h2 : r2 = getOutputPaths up gp cfg url t) :
    r1 = r2 ∧ r1.dirSegments = r2.dirSegments ∧ r1.filename = r2.filename := by
  subst h1; subst h2
  exact ⟨rfl, rfl, rfl⟩

/-- C1 witness: two separate invocations on
`https://example.com/about/` under the URL-path policy agree. -/
theorem c1_path_mapping_deterministic_witness :
    getOutputPaths upAbout gpNone cfgUrlPath "https://example.com/about/" none =
      getOutputPaths upAbout gpNone cfgUrlPath "https://example.com/about/" none :=
  (c1_path_mapping_deterministic upAbout gpNone cfgUrlPath
    "https://example.com/about/" none _ _ rfl rfl).1

/-- C2 counterexample: the claim says `https://example.com/about/` (domain
subfolders on, URL-path policy) maps to `<root>/example.com/about/index.md`.
It does not: `parseUrl` trims the trailing slash before splitting, so the
trailing segment `about` becomes the filename — the result is
`<root>/example.com/about.md`, with filename `about.md ≠ index.md` and
no `about` directory segment. -/
theorem c2_counterexample :
    getOutputPaths upAbout gpNone cfgUrlPath "https://example.com/about/" none =
      ⟨"dist", ["example.com"], "about.md"⟩ ∧
    ("about.md" : String) ≠ "index.md" ∧
    (["example.com"] : List String) ≠ ["example.com", "about"] := by
  exact ⟨by decide, by decide, by decide⟩

/-- C2 amended: for the URL `https://example.com/about/` with no query
string, domain subfolders enabled and the URL-path policy, the mapped output
path is `<root>/example.com/about.md` — the pathname's trailing slash is
removed before splitting, so the last path segment `about` becomes the
filename; no `index` filename and no `about` directory appear. Stated for
every WHATWG parse capability that parses this URL to hostname
`example.com`, pathname `/about/` and empty search, as the platform parser
does. -/
theorem c2_amended (up : String → Option UrlObj)
    (gp : String → String → Option String)
    (h : up "https://example.com/about/" = some ⟨"example.com", "/about/", ""⟩) :
    getOutputPaths up gp cfgUrlPath "https://example.com/about/" none =
      ⟨"dist", ["example.com"], "about.md"⟩ := by
  have h0 : ¬(("" : String) ≠ "") := by decide
  simp only [getOutputPaths, parseUrl, h, if_neg h0]
  decide

/-- C2 amended, witness: the concrete platform-parse capability. -/
theorem c2_amended_witness :
    upAbout "https://example.com/about/" = some ⟨"example.com", "/about/", ""⟩ ∧
    getOutputPaths upAbout gpNone cfgUrlPath "https://example.com/about/" none =
      ⟨"dist", ["example.com"], "about.md"⟩ :=
  ⟨rfl, c2_amended upAbout gpNone rfl⟩

/-- C3 counterexample: the claim says every directory segment is non-empty,
with empty sanitization results falling back to `index`. But for
`https://example.com/.../page` (pathname `/.../page`; WHATWG keeps a `...`
segment) the directory part `...` sanitizes to the empty string — the
`^\.+$` reserved rule erases it — and `getOutputPaths` keeps the empty
segment: only the filename has the `index` fallback. -/
theorem c3_counterexample :
    getOutputPaths upDots gpNone cfgPreserve "https://example.com/.../page"
        none = ⟨"dist", ["example.com", ""], "page.md"⟩ ∧
    ("" : String) ∈ (getOutputPaths upDots gpNone cfgPreserve
        "https://example.com/.../page" none).dirSegments := by
  exact ⟨by decide, by decide⟩

/-- C3 amended: for every input URL (well-formed or malformed — the
`urlParse` capability covers both, `none` taking the string-split fallback
branch) the mapping never throws (it is a total function), the produced
filename is non-empty (it always ends in `.md`) and free of path separators
and filesystem-reserved characters (`/ ? < > \ : * | "` and control
characters), and every directory segment is likewise free of those
characters — but a directory segment may be empty: the `index` fallback
never applies to directory segments. The `index` substitution for an
empty sanitization result applies to the filename only on the well-formed
branch: there the filename is a sanitized stem with `index` substituted
exactly when the stem sanitizes to empty (fourth conjunct), while on the
malformed-URL fallback branch `sanitize(filename || 'index')` applies the
`index` default before sanitizing, so a fallback filename can degenerate to
the bare extension `.md` (fifth conjunct: the malformed input `x/...`). -/
theorem c3_amended (up : String → Option UrlObj)
    (gp : String → String → Option String) (cfg : PathConfig) (url : String)
    (t : Option String) :
    (getOutputPaths up gp cfg url t).filename ≠ "" ∧
    (getOutputPaths up gp cfg url t).filename.data.all safeChar = true ∧
    (getOutputPaths up gp cfg url t).dirSegments.all
      (fun seg => seg.data.all safeChar) = true ∧
    (∀ u : UrlObj, up url = some u → ∃ stem : String,
      (parseUrl up gp cfg url).filename =
        (if sanitizeFilename stem = "" then "index" else sanitizeFilename stem)
          ++ ".md") ∧
    (parseUrl upNoParse gpNone cfgPreserve "x/...").filename = ".md" := by
  rcases getOutputPaths_filename_safe up gp cfg url t with ⟨h1, h2⟩
  refine ⟨h1, h2, getOutputPaths_dirSegments_safe up gp cfg url t, ?_, by decide⟩
  intro u hu
  simp only [parseUrl, hu]
  exact ⟨_, rfl⟩

lemma jsTake_of_length_le {s : String} {n : Nat} (h : jsLength s ≤ n) :
    jsTake s n = s := by
  cases s with
  | mk l =>
    show (⟨l.take n⟩ : String) = ⟨l⟩
    rw [List.take_of_length_le h]

set_option maxRecDepth 8192 in
/-- C4: under the query-hash-preserving policy (`preserveUrlFilenames`),
for every URL whose parsed `search` is non-empty with a non-empty query
string, the filename is the URL-derived stem with the suffix
`-<queryHashHex q>` appended before the final sanitize-and-`.md` step, where
`queryHashHex q` is the lowercase hexadecimal rendering of the 32-bit
wrap-around hash `hashCode q` of the query string `q` alone; the two query
strings `id=123&category=books` and `id=124&category=books` hash to distinct
suffixes (`799261bf` vs `67ff7c20`) and hence to distinct filenames at the
scenario URLs, and the suffix is a function of the query string only, so
equal query strings always receive equal suffixes. -/
theorem c4_query_hash_filenames (up : String → Option UrlObj)
    (gp : String → String → Option String) (cfg : PathConfig) (url : String)
    (u : UrlObj) (hcfg : cfg.preserveUrlFilenames = true)
    (hu : up url = some u) (hs : u.search ≠ "")
    (hq : 0 < jsLength (queryStrOf u)) :
    ((parseUrl up gp cfg url).filename =
      (if sanitizeFilename (urlFilenameStem u ++ "-" ++ queryHashHex (queryStrOf u)) = ""
        then "index"
        else sanitizeFilename (urlFilenameStem u ++ "-" ++ queryHashHex (queryStrOf u)))
        ++ ".md") ∧
    queryHashHex "id=123&category=books" ≠ queryHashHex "id=124&category=books" ∧
    (parseUrl upQ123 gpNone cfgPreserve
      "https://example.com/products?id=123&category=books").filename =
      "products-799261bf.md" ∧
    (parseUrl upQ124 gpNone cfgPreserve
      "https://example.com/products?id=124&category=books").filename =
      "products-67ff7c20.md" ∧
    ("products-799261bf.md" : String) ≠ "products-67ff7c20.md" ∧
    (∀ u2 : UrlObj, queryStrOf u2 = queryStrOf u →
      queryHashHex (queryStrOf u2) = queryHashHex (queryStrOf u)) := by
  refine ⟨?_, by decide, by decide, by decide, by decide, ?_⟩
  · simp only [parseUrl, hu, if_pos hs, hcfg, if_pos hq, if_true]
  · intro u2 h2; rw [h2]

set_option maxRecDepth 8192 in
/-- C4 witness: the hypotheses hold at the scenario URL
`https://example.com/products?id=123&category=books`, and the theorem's
filename formula evaluates there to `products-799261bf.md`. -/
theorem c4_query_hash_filenames_witness :
    cfgPreserve.preserveUrlFilenames = true ∧
    upQ123 "https://example.com/products?id=123&category=books" =
      some ⟨"example.com", "/products", "?id=123&category=books"⟩ ∧
    (parseUrl upQ123 gpNone cfgPreserve
      "https://example.com/products?id=123&category=books").filename =
      (if sanitizeFilename (urlFilenameStem ⟨"example.com", "/products",
          "?id=123&category=books"⟩ ++ "-" ++ queryHashHex (queryStrOf
          ⟨"example.com", "/products", "?id=123&category=books"⟩)) = ""
        then "index"
        else sanitizeFilename (urlFilenameStem ⟨"example.com", "/products",
          "?id=123&category=books"⟩ ++ "-" ++ queryHashHex (queryStrOf
          ⟨"example.com", "/products", "?id=123&category=books"⟩))) ++ ".md" :=
  ⟨rfl, rfl,
    (c4_query_hash_filenames upQ123 gpNone cfgPreserve
      "https://example.com/products?id=123&category=books"
      ⟨"example.com", "/products", "?id=123&category=books"⟩
      rfl rfl (by decide) (by decide)).1⟩

/-- C5: when the page-title policy (`usePageTitlesForFilenames`) is active,
a non-empty title is available, and the query-hash policy
(`preserveUrlFilenames`) is off, the output filename is the sanitized title
truncated to at most 100 characters plus the `.md` extension; if that
sanitized, capped title is empty, the URL-derived filename is retained; and
whenever `preserveUrlFilenames` is on, the title (any title) is ignored and
the URL-derived filename is used — the query-hash policy takes precedence
over the title policy. -/
theorem c5_title_policy (up : String → Option UrlObj)
    (gp : String → String → Option String) (cfg : PathConfig) (url : String)
    (t : String) (hT : cfg.usePageTitlesForFilenames = true) (ht : t ≠ "")
    (hP : cfg.preserveUrlFilenames = false) :
    ((getOutputPaths up gp cfg url (some t)).filename =
      (if jsTake (sanitizeFilename t) 100 = ""
        then (parseUrl up gp cfg url).filename
        else jsTake (sanitizeFilename t) 100 ++ ".md")) ∧
    jsLength (jsTake (sanitizeFilename t) 100) ≤ 100 ∧
    (∀ (cfg2 : PathConfig) (title2 : Option String),
      cfg2.preserveUrlFilenames = true →
      (getOutputPaths up gp cfg2 url title2).filename =
        (parseUrl up gp cfg2 url).filename) := by
  refine ⟨?_, ?_, ?_⟩
  · have hc : (cfg.usePageTitlesForFilenames && titleTruthy (some t) &&
        !cfg.preserveUrlFilenames) = true := by
      simp [hT, hP, titleTruthy, ht]
    simp only [getOutputPaths, if_pos hc, Option.getD_some]
    by_cases hl : 100 < jsLength (sanitizeFilename t)
    · rw [if_pos hl]
    · rw [if_neg hl]
      rw [jsTake_of_length_le (Nat.le_of_not_lt hl)]
  · show (List.take 100 _).length ≤ 100
    exact le_trans (List.length_take_le 100 _) le_rfl
  · intro cfg2 title2 h2
    have hc2 : (cfg2.usePageTitlesForFilenames && titleTruthy title2 &&
        !cfg2.preserveUrlFilenames) = false := by
      simp [h2]
    simp only [getOutputPaths, hc2, if_false, Bool.false_eq_true]

/-- C5 witness: title `About Us`, title policy on, preserve off — the
filename is the sanitized capped title `About Us.md`. -/
theorem c5_title_policy_witness :
    cfgTitle.usePageTitlesForFilenames = true ∧
    cfgTitle.preserveUrlFilenames = false ∧
    ("About Us" : String) ≠ "" ∧
    (getOutputPaths upNoParse gpNone cfgTitle "not a url"
      (some "About Us")).filename = "About Us.md" :=
  ⟨rfl, rfl, by decide, by
    rw [(c5_title_policy upNoParse gpNone cfgTitle "not a url" "About Us"
      rfl (by decide) rfl).1]
    decide⟩

/-- C6 counterexample: the claim says `extractPageTitle` returns the first
non-empty trimmed match of title / h1 / meta. For a document whose `<title>`
holds only whitespace and whose first `<h1>` is `Hello`, the first non-empty
trimmed match is `Hello` — but the code tests emptiness on the raw
(untrimmed) title text, so it returns the empty string instead of falling
through to the h1 (and the empty string is also not the no-title result). -/
theorem c6_counterexample :
    HtmlProcessor.extractPageTitle (some ⟨some " ", some "Hello", none⟩) =
      some "" ∧
    (some "" : Option String) ≠ some "Hello" ∧
    (some "" : Option String) ≠ none := by
  exact ⟨by decide, by decide, by decide⟩

/-- C6 amended: for every parsed document, `extractPageTitle` tries, in
order, the first title element's text, the first h1 element's text, and the
`content` attribute of a `meta[name="title"]` element, and returns the
*trimmed* value of the first whose *raw* value is present and non-empty —
so a whitespace-only earlier candidate yields the empty string rather than
falling through; when no candidate has a truthy raw value, or parsing
failed, it returns the no-title result; and it is a total function (never
raises). -/
theorem c6_amended (doc : Option HtmlProcessor.TitleDoc) :
    HtmlProcessor.extractPageTitle doc = extractTitleAmendedSpec doc := by
  cases doc with
  | none => rfl
  | some d =>
    cases d with
    | mk titleText h1Text metaTitleContent =>
      by_cases h1 : HtmlProcessor.strTruthy titleText = true
      · simp [HtmlProcessor.extractPageTitle, extractTitleAmendedSpec,
          List.find?, h1]
      · by_cases h2 : HtmlProcessor.strTruthy h1Text = true
        · simp [HtmlProcessor.extractPageTitle, extractTitleAmendedSpec,
            List.find?, h1, h2]
        · by_cases h3 : HtmlProcessor.strTruthy metaTitleContent = true <;>
            simp [HtmlProcessor.extractPageTitle, extractTitleAmendedSpec,
              List.find?, h1, h2, h3]

lemma windows_nil (k : Nat) : SitemapParser.windows k [] = [] := by
  unfold SitemapParser.windows
  rcases Nat.eq_zero_or_pos k with h | h
  · subst h; rfl
  · rw [List.length_nil, Nat.zero_add,
      Nat.div_eq_of_lt (Nat.sub_lt h Nat.one_pos)]
    rfl

lemma windows_cons (k : Nat) (hk : 0 < k) (l : List (Option String))
    (hl : l ≠ []) :
    SitemapParser.windows k l = l.take k :: SitemapParser.windows k (l.drop k) := by
  have hn : 1 ≤ l.length := List.length_pos.mpr hl
  unfold SitemapParser.windows
  have hcount : (l.length + k - 1) / k = (l.length - 1) / k + 1 := by
    have h1 : l.length + k - 1 = (l.length - 1) + k := by omega
    rw [h1, Nat.add_div_right _ hk]
  have hcount2 : ((l.drop k).length + k - 1) / k = (l.length - 1) / k := by
    rw [List.length_drop]
    rcases le_or_lt k l.length with h | h
    · congr 1; omega
    · have h1 : l.length - k = 0 := by omega
      rw [h1]
      rw [Nat.div_eq_of_lt (by omega), Nat.div_eq_of_lt (by omega)]
  rw [hcount, hcount2, List.range_succ_eq_map, List.map_cons, List.map_map]
  congr 1
  · simp
  · apply List.map_congr_left
    intro i _
    show (l.drop ((i + 1) * k)).take k = ((l.drop k).drop (i * k)).take k
    rw [List.drop_drop]
    congr 2
    ring

lemma windows_flatten (k : Nat) (hk : 0 < k) (l : List (Option String)) :
    (SitemapParser.windows k l).flatten = l := by
  suffices H : ∀ (n : Nat) (l : List (Option String)), l.length = n →
      (SitemapParser.windows k l).flatten = l from H l.length l rfl
  intro n
  induction n using Nat.strong_induction_on with
  | _ n ih =>
    intro l hl
    rcases eq_or_ne l [] with rfl | hne
    · rw [windows_nil]; rfl
    · rw [windows_cons k hk l hne, List.flatten_cons]
      have hlt : (l.drop k).length < n := by
        rw [List.length_drop]
        have := List.length_pos.mpr hne
        omega
      rw [ih ((l.drop k).length) hlt (l.drop k) rfl]
      exact List.take_append_drop k l

lemma flatten_map_flatten {α β : Type} (g : α → List β) (L : List (List α)) :
    (L.map fun b => (b.map g).flatten).flatten = (L.flatten.map g).flatten := by
  induction L with
  | nil => rfl
  | cons x xs ih => simp [List.map_append, List.flatten_append, ih]

/-- C7: resolving a sitemap index concatenates, over windows of at most
`maxConcurrent` children processed strictly in input order (with
`Promise.all` preserving order inside a window), the results of resolving
each referenced child independently — each child's location resolved
against the current document's own URL — which equals the plain
concatenation over all children in order; and a sitemap whose fetch fails
(fetch error, non-success status or XML parse failure, all `none` in the
fetch capability) contributes the empty list instead of aborting the
resolution of its siblings. -/
theorem c7_sitemap_index_resolution
    (fetchDoc : String → Option SitemapParser.SitemapDoc)
    (resolveUrl : String → String → String) (k fuel : Nat) (url : String)
    (cs : List (Option String)) (hk : 0 < k)
    (hidx : fetchDoc url = some (SitemapParser.SitemapDoc.index cs)) :
    (SitemapParser.parseFromUrl fetchDoc resolveUrl k (fuel + 1) url =
      (cs.map fun child =>
        match child with
        | some loc =>
          SitemapParser.parseFromUrl fetchDoc resolveUrl k fuel
            (resolveUrl loc url)
        | none => []).flatten) ∧
    (∀ (v : String) (fuel2 : Nat), fetchDoc v = none →
      SitemapParser.parseFromUrl fetchDoc resolveUrl k fuel2 v = []) := by
  constructor
  · simp only [SitemapParser.parseFromUrl, hidx]
    rw [flatten_map_flatten, windows_flatten k hk cs]
  · intro v fuel2 hv
    cases fuel2 with
    | zero => rfl
    | succ m => simp [SitemapParser.parseFromUrl, hv]

/-- C7 witness: an index of two leaf sitemaps, two URLs each, resolves (with
window size 3) to exactly the four page URLs, in order. -/
theorem c7_sitemap_index_resolution_witness :
    (0 : Nat) < 3 ∧
    sitemapEnvC7 "https://example.com/sitemap.xml" =
      some (SitemapParser.SitemapDoc.index
        [some "https://example.com/s1.xml", some "https://example.com/s2.xml"]) ∧
    SitemapParser.parseFromUrl sitemapEnvC7 resolveAbs 3 2
        "https://example.com/sitemap.xml" =
      ["https://example.com/p1", "https://example.com/p2",
       "https://example.com/p3", "https://example.com/p4"] :=
  ⟨by decide, by decide, by
    rw [(c7_sitemap_index_resolution sitemapEnvC7 resolveAbs 3 1
      "https://example.com/sitemap.xml"
      [some "https://example.com/s1.xml", some "https://example.com/s2.xml"]
      (by decide) (by decide)).1]
    decide⟩

/-- C8 counterexample: the claim says a fetch that fails more times than the
retry ceiling results in zero file writes. With ceiling 3, a fetch failing
its first four attempts exhausts `fetchHtmlContent`'s own retries — but the
thrown error is caught by `convertHtmlToMarkdown`, which retries the whole
fetch with a fresh `retryCount = 0`; the fifth overall attempt succeeds and
exactly one file is written. -/
theorem c8_counterexample :
    processUrl envFails4 (fun s => some s) 3 = some "page-body" ∧
    processUrl envFails4 (fun s => some s) 3 ≠ none := by
  have h : processUrl envFails4 (fun s => some s) 3 = some "page-body" := by
    simp [processUrl, convertHtmlToMarkdown, fetchHtmlContent, envFails4]
  exact ⟨h, by rw [h]; exact Option.some_ne_none _⟩

/-- C8 amended: with the configured ceiling 3, a fetch that fails twice and
succeeds on the third attempt yields exactly one successful write (of the
converted content) and no failure entry; a fetch that fails on every
attempt yields zero file writes and one logged failure, without aborting
the batch (the error is caught inside `processUrl`); but a fetch that fails
four times — more than the ceiling — and then succeeds still yields one
write, because the conversion-level catch retries the rethrown fetch
exhaustion with a fresh fetch retry budget; zero writes occur only when the
failures persist through the nested retries. -/
theorem c8_retry_behavior (env : Nat → Option String)
    (convert : String → Option String) (body md : String)
    (h0 : env 0 = none) (h1 : env 1 = none) (h2 : env 2 = some body)
    (hc : convert body = some md) :
    processUrl env convert 3 = some md ∧
    (∀ env2 : Nat → Option String, (∀ n, env2 n = none) →
      ∀ convert2 : String → Option String, processUrl env2 convert2 3 = none) ∧
    processUrl envFails4 (fun s => some s) 3 = some "page-body" := by
  refine ⟨?_, ?_, ?_⟩
  · simp [processUrl, convertHtmlToMarkdown, fetchHtmlContent, h0, h1, h2, hc]
  · intro env2 hall convert2
    simp [processUrl, convertHtmlToMarkdown, fetchHtmlContent, hall]
  · simp [processUrl, convertHtmlToMarkdown, fetchHtmlContent, envFails4]

/-- C8 witness: the fails-twice-then-succeeds schedule writes once; the
always-failing schedule writes nothing. -/
theorem c8_retry_behavior_witness :
    envFails2 0 = none ∧ envFails2 1 = none ∧ envFails2 2 = some "page-body" ∧
    processUrl envFails2 (fun s => some s) 3 = some "page-body" ∧
    processUrl envAllFail (fun s => some s) 3 = none :=
  ⟨rfl, rfl, rfl,
    (c8_retry_behavior envFails2 (fun s => some s) "page-body" "page-body"
      rfl rfl rfl rfl).1,
    (c8_retry_behavior envFails2 (fun s => some s) "page-body" "page-body"
      rfl rfl rfl rfl).2.1 envAllFail (fun _ => rfl) (fun s => some s)⟩

/-- C9 counterexample: the claim says that on any internal parse *or
selector-query* failure the rewrite returns the original markup unchanged.
With capabilities where the document parses but the combined exclude
selector makes `querySelectorAll` throw (`excludeQuery = none`), the
stage-local catch swallows the failure and processing continues: the result
is the re-serialized document — jsdom's normalised rendering — which is not
the original markup string `x`. -/
theorem c9_counterexample :
    capsC9.excludeQuery domC9 = none ∧
    capsC9.parse "x" = some domC9 ∧
    HtmlProcessor.process capsC9 true "x" none ≠ "x" := by
  exact ⟨rfl, rfl, by decide⟩

/-- C9 amended: the rewrite is a total function of its inputs (never raises
to the caller); when parsing fails it returns the original markup string
unchanged, for every rule configuration and page URL; but a selector-query
failure is caught inside its own stage, leaving the document unchanged *by
that stage* while the remaining stages and serialization still run — the
result is then the re-serialized document, in general not the original
markup string. -/
theorem c9_rewrite_failure_handling (caps : HtmlProcessor.DomCaps)
    (removeAttrsFlag : Bool) (html : String) (d : Dom)
    (hparse : caps.parse html = some d)
    (hq : caps.excludeQuery d = none) :
    (HtmlProcessor.process caps removeAttrsFlag html none =
      caps.serialize (if removeAttrsFlag then
        HtmlProcessor.removeAttributes
          (HtmlProcessor.runQueryStage caps.unwrapQuery d)
        else HtmlProcessor.runQueryStage caps.unwrapQuery d)) ∧
    (∀ (caps2 : HtmlProcessor.DomCaps) (ra2 : Bool) (html2 : String)
      (pu2 : Option String), caps2.parse html2 = none →
      HtmlProcessor.process caps2 ra2 html2 pu2 = html2) := by
  constructor
  · simp only [HtmlProcessor.process, hparse, HtmlProcessor.applySelectors,
      HtmlProcessor.runQueryStage, hq, Option.getD_none]
  · intro caps2 ra2 html2 pu2 h
    simp only [HtmlProcessor.process, h]

/-- C9 amended, witness: the concrete capabilities with a throwing exclude
query and a parser that fails on the empty string. -/
theorem c9_rewrite_failure_handling_witness :
    capsC9.parse "x" = some domC9 ∧
    capsC9.excludeQuery domC9 = none ∧
    HtmlProcessor.process capsC9 true "x" none =
      capsC9.serialize (if true then
        HtmlProcessor.removeAttributes
          (HtmlProcessor.runQueryStage capsC9.unwrapQuery domC9)
        else HtmlProcessor.runQueryStage capsC9.unwrapQuery domC9) :=
  ⟨rfl, rfl, (c9_rewrite_failure_handling capsC9 true "x" domC9 rfl rfl).1⟩

/-- C10: the batch pipeline invokes the HTML rewriter without a page URL
(`pipelineRewrite` is the one-argument call at `src/index.ts` lines 269 and
456), so the media-URL absolutization stage never executes there: the
rewriter's output does not depend on the absolutization capabilities at
all, it equals the serialization of the selector stages alone, and —
concretely — a root-relative `src` value survives the pipeline rewrite
unchanged even though the same capabilities *would* rewrite it were a page
URL supplied. -/
theorem c10_pipeline_skips_absolutization (caps : HtmlProcessor.DomCaps)
    (removeAttrsFlag : Bool) (html : String) (d : Dom)
    (hparse : caps.parse html = some d) :
    (∀ (uo : String → Option String) (af : String → String → String),
      pipelineRewrite { caps with urlOrigin := uo, altFix := af }
          removeAttrsFlag html =
        pipelineRewrite caps removeAttrsFlag html) ∧
    pipelineRewrite caps removeAttrsFlag html =
      caps.serialize (HtmlProcessor.applySelectors caps.excludeQuery
        caps.unwrapQuery removeAttrsFlag d) ∧
    pipelineRewrite capsC10 true html = "src=/pic.png;alt=logo;" ∧
    HtmlProcessor.process capsC10 true html (some "https://example.com") =
      "src=https://example.com/pic.png;alt=logo;" ∧
    HtmlProcessor.process capsC10 true html (some "https://example.com") ≠
      pipelineRewrite capsC10 true html := by
  refine ⟨?_, ?_, ?_, ?_, ?_⟩
  · intro uo af
    simp only [pipelineRewrite, HtmlProcessor.process, hparse]
  · simp only [pipelineRewrite, HtmlProcessor.process, hparse]
  · simp only [pipelineRewrite, HtmlProcessor.process, capsC10]
    decide
  · simp only [HtmlProcessor.process, capsC10]
    decide
  · simp only [pipelineRewrite, HtmlProcessor.process, capsC10]
    decide

/-- C10 witness: the concrete capabilities and page. -/
theorem c10_pipeline_skips_absolutization_witness :
    capsC10.parse "<page>" = some domC10 ∧
    pipelineRewrite capsC10 true "<page>" =
      capsC10.serialize (HtmlProcessor.applySelectors capsC10.excludeQuery
        capsC10.unwrapQuery true domC10) ∧
    pipelineRewrite capsC10 true "<page>" = "src=/pic.png;alt=logo;" :=
  ⟨rfl,
    (c10_pipeline_skips_absolutization capsC10 true "<page>" domC10 rfl).2.1,
    (c10_pipeline_skips_absolutization capsC10 true "<page>" domC10 rfl).2.2.1⟩
